import Mathlib

/-!
Verification development for the LoR deck builder
(`deck_builder.py`, `combat_page_getter.py`, `data_checkpoint.py`).

The Python source is shallowly embedded: card records become a `Card`
structure, floats used in statistics and constraint checks become exact
rationals (`ℚ`), floats used only in scores become reals (`ℝ`), Python
exceptions become `Except String`, and the global numpy random generator
becomes an explicit state threaded through a `StateT` monad, abstracted by
an `NpRandom` structure (numpy itself is an external library; only the
argument validation of `np.random.choice` is modelled concretely, the
actual pseudo-random index selection is a parameter).
-/

deriving instance DecidableEq for Except

namespace LoR

/-! ### Text utilities (Python `str.lower`, `in`, `endswith`, `"\n".join`) -/

def pyIsSpace (c : Char) : Bool :=
  c == ' ' || c == '\t' || c == '\n' || c == '\r' || c == '\x0b' || c == '\x0c'

def pyIsDigit (c : Char) : Bool :=
  '0' ≤ c && c ≤ '9'

/-- Python `\w` over ASCII text: letters, digits or underscore. -/
def pyIsWord (c : Char) : Bool :=
  c.isAlpha || pyIsDigit c || c == '_'

/-- `s.lower()` for the ASCII texts of the catalog, as a character list. -/
def lowerS (s : String) : List Char :=
  s.data.map Char.toLower

/-- Does `cs` start with the literal `lit`?  Returns the rest on success. -/
def stripPre : List Char → List Char → Option (List Char)
  | [], cs => some cs
  | _ :: _, [] => none
  | l :: ls, c :: cs => if c = l then stripPre ls cs else none

/-- Python `needle in hay` on character lists. -/
def containsSub (needle : List Char) : List Char → Bool
  | [] => (stripPre needle []).isSome
  | c :: t => (stripPre needle (c :: t)).isSome || containsSub needle t

/-- Python `hay.endswith(suffix)` on character lists. -/
def endsWithL (suffix cs : List Char) : Bool :=
  (stripPre suffix.reverse cs.reverse).isSome

/-- Split off the maximal run of characters satisfying `p` (greedy `p+`/`p*`). -/
def takeRun (p : Char → Bool) (cs : List Char) : List Char × List Char :=
  (cs.takeWhile p, cs.dropWhile p)

/-- Numeric value of a run of decimal digits (`int(...)` on the matched group). -/
def digitsToNat (ds : List Char) : ℕ :=
  ds.foldl (fun a c => 10 * a + (c.toNat - '0'.toNat)) 0

/-- Python `"\n".join(parts)` on character lists. -/
def joinNL : List (List Char) → List Char
  | [] => []
  | [p] => p
  | p :: ps => p ++ '\n' :: joinNL ps

/-! ### Regex matchers

Each regular expression of the source is compiled by hand into a
deterministic matcher.  All the patterns have the shape
"literal, `\s+`, digits or a small alternation, `\s+`, literal", where the
greedy `\s+`/`\d+`/`\w+` runs are followed by a character class disjoint
from the one of the run, so greedy matching without backtracking inside a
run is equivalent to the backtracking behaviour of `re`; the alternations
are tried in the order `re` tries them. -/

/-- Try `restore\s+(\d+)\s+light` anchored at the start of `cs`; on success
return the captured number and the rest of the text after the match. -/
def matchRestoreAt (cs : List Char) : Option (ℕ × List Char) :=
  match stripPre "restore".data cs with
  | none => none
  | some cs1 =>
    let sp := (takeRun pyIsSpace cs1).1
    let cs2 := (takeRun pyIsSpace cs1).2
    if sp = [] then none else
    let ds := (takeRun pyIsDigit cs2).1
    let cs3 := (takeRun pyIsDigit cs2).2
    if ds = [] then none else
    let sp2 := (takeRun pyIsSpace cs3).1
    let cs4 := (takeRun pyIsSpace cs3).2
    if sp2 = [] then none else
    match stripPre "light".data cs4 with
    | none => none
    | some cs5 => some (digitsToNat ds, cs5)

/-- `re.search(r"restore\s+(\d+)\s+light", cs)`: leftmost match, with the
rest of the text after the match. -/
def searchRestore : List Char → Option (ℕ × List Char)
  | [] => none
  | c :: t =>
    match matchRestoreAt (c :: t) with
    | some r => some r
    | none => searchRestore t

def findallRestoreAux : ℕ → List Char → List ℕ
  | 0, _ => []
  | fuel + 1, cs =>
    match searchRestore cs with
    | none => []
    | some (n, rest) => n :: findallRestoreAux fuel rest

/-- `re.findall(r"restore\s+(\d+)\s+light", cs)`: all successive
non-overlapping matches.  (Used by the specification-side definition; the
source only ever takes the first match.) -/
def findallRestore (cs : List Char) : List ℕ :=
  findallRestoreAux cs.length cs

/-- Try `draws?\s+(a|\d+)\s+page` anchored at the start of `cs`, returning
the draw count (`"a"` counts as 1). -/
def matchDrawAt (cs : List Char) : Option ℤ :=
  match stripPre "draw".data cs with
  | none => none
  | some cs1 =>
    -- greedy `s?`: the following `\s+` can never consume the letter `s`
    let cs1 := match cs1 with
      | 's' :: t => t
      | _ => cs1
    let (sp, cs2) := takeRun pyIsSpace cs1
    if sp = [] then none else
    -- alternation `(a|\d+)`, tried in `re`'s order with full backtracking
    let branchA : Option ℤ :=
      match cs2 with
      | 'a' :: cs3 =>
        let (sp2, cs4) := takeRun pyIsSpace cs3
        if sp2 = [] then none else
        if (stripPre "page".data cs4).isSome then some 1 else none
      | _ => none
    match branchA with
    | some v => some v
    | none =>
      let (ds, cs3) := takeRun pyIsDigit cs2
      if ds = [] then none else
      let (sp2, cs4) := takeRun pyIsSpace cs3
      if sp2 = [] then none else
      if (stripPre "page".data cs4).isSome then some (digitsToNat ds : ℤ) else none

def searchDraw : List Char → Option ℤ
  | [] => none
  | c :: t =>
    match matchDrawAt (c :: t) with
    | some r => some r
    | none => searchDraw t

/-- Try `discard\s+(a|a random|\d+)\s+page[s]?` anchored at the start,
returning the discard count (`"a"` and `"a random"` count as 1). -/
def matchDiscardAt (cs : List Char) : Option ℤ :=
  match stripPre "discard".data cs with
  | none => none
  | some cs1 =>
    let (sp, cs2) := takeRun pyIsSpace cs1
    if sp = [] then none else
    let after : List Char → Option Unit := fun cs3 =>
      let (sp2, cs4) := takeRun pyIsSpace cs3
      if sp2 = [] then none else
      if (stripPre "page".data cs4).isSome then some () else none
    -- alternation `(a|a random|\d+)` in `re`'s order
    let branchA : Option ℤ :=
      match cs2 with
      | 'a' :: cs3 => (after cs3).map (fun _ => 1)
      | _ => none
    match branchA with
    | some v => some v
    | none =>
      let branchAR : Option ℤ :=
        match stripPre "a random".data cs2 with
        | some cs3 => (after cs3).map (fun _ => 1)
        | none => none
      match branchAR with
      | some v => some v
      | none =>
        let (ds, cs3) := takeRun pyIsDigit cs2
        if ds = [] then none else
        (after cs3).map (fun _ => (digitsToNat ds : ℤ))

def searchDiscard : List Char → Option ℤ
  | [] => none
  | c :: t =>
    match matchDiscardAt (c :: t) with
    | some r => some r
    | none => searchDiscard t

/-- Word-boundary-aware scan for `\b(\d+)~(\d+)\b` (the dice value range).
`prev` is the character just before the current position (`none` at the
start of the text). -/
def searchRangeAux (prev : Option Char) : List Char → Option (ℕ × ℕ)
  | [] => none
  | c :: t =>
    let here : Option (ℕ × ℕ) :=
      if (match prev with | none => true | some p => !pyIsWord p) then
        let (ds, cs1) := takeRun pyIsDigit (c :: t)
        if ds = [] then none else
        match cs1 with
        | '~' :: cs2 =>
          let (ds2, cs3) := takeRun pyIsDigit cs2
          if ds2 = [] then none else
          if (match cs3 with | [] => true | d :: _ => !pyIsWord d) then
            some (digitsToNat ds, digitsToNat ds2)
          else none
        | _ => none
      else none
    match here with
    | some r => some r
    | none => searchRangeAux (some c) t

/-- `re.search(r"\b(\d+)~(\d+)\b", cs)`. -/
def searchRange (cs : List Char) : Option (ℕ × ℕ) :=
  searchRangeAux none cs

/-- Try `<kw>\s+(\d+)\s+(\w+)` anchored at the start of `cs` (the shape of
the five status-effect patterns); on success return the number, the matched
word and the rest of the text. -/
def matchKeyAt (kw : List Char) (cs : List Char) : Option (ℕ × List Char × List Char) :=
  match stripPre kw cs with
  | none => none
  | some cs1 =>
    let (sp, cs2) := takeRun pyIsSpace cs1
    if sp = [] then none else
    let (ds, cs3) := takeRun pyIsDigit cs2
    if ds = [] then none else
    let (sp2, cs4) := takeRun pyIsSpace cs3
    if sp2 = [] then none else
    let (w, cs5) := takeRun pyIsWord cs4
    if w = [] then none else
    some (digitsToNat ds, w, cs5)

def searchKey (kw : List Char) : List Char → Option (ℕ × List Char × List Char)
  | [] => none
  | c :: t =>
    match matchKeyAt kw (c :: t) with
    | some r => some r
    | none => searchKey kw t

def findallKeyAux (kw : List Char) : ℕ → List Char → List (ℕ × List Char)
  | 0, _ => []
  | fuel + 1, cs =>
    match searchKey kw cs with
    | none => []
    | some (n, w, rest) => (n, w) :: findallKeyAux kw fuel rest

/-- `re.findall(r"<kw>\s+(\d+)\s+(\w+)", cs)`. -/
def findallKey (kw : List Char) (cs : List Char) : List (ℕ × List Char) :=
  findallKeyAux kw cs.length cs

/-! ### Data model -/

/-- A combat page record, as produced by the (excluded) ingestion pipeline
and consumed by the core.  In the JSON catalog `Cost` is a numeric string
that the source converts with `int(...)` at each use; it is embedded as the
parsed integer, and `toString` recovers the raw text where the record's
string values are searched.  `"Card Limit"` is embedded as `CardLimit`. -/
structure Card where
  Name : String
  Rank : String
  Cost : ℤ
  Range : String
  Effect : String
  Dices : List (String × String)
  Obtained : String
  CardLimit : ℤ
deriving DecidableEq

/-- The values of the card dictionary that the recursive keyword search of
`apply_filter` visits: every string value, with the `Dices` sub-dictionary
recursed into (the integer `"Card Limit"` is skipped by the
`isinstance(value, str)` check). -/
def cardValues (c : Card) : List String :=
  [c.Name, c.Rank, toString c.Cost, c.Range, c.Effect] ++ c.Dices.map (·.2) ++ [c.Obtained]

/-- A beam element's deck as the dynamically-typed Python code holds it:
either still a bare card dictionary (before the first expansion) or a list
of cards. -/
inductive PyDeck where
  | single (c : Card)
  | multi (d : List Card)
deriving DecidableEq

/-- A `collections.Counter` keyed by strings, as an insertion-ordered
association list; missing keys count as 0. -/
abbrev StrCounter : Type := List (String × ℤ)

/-- `counter[key]` on a `Counter` (0 for a missing key). -/
def cGet (c : StrCounter) (k : String) : ℤ :=
  ((c.find? (fun e => e.1 = k)).map (·.2)).getD 0

/-- `counter.get(key, default)` (plain `dict.get`). -/
def cGetD (c : StrCounter) (k : String) (dflt : ℤ) : ℤ :=
  ((c.find? (fun e => e.1 = k)).map (·.2)).getD dflt

/-- `update_counter(counter, obj, value)` from both source files: add
`value` to an existing key, else insert it. -/
def update_counter (c : StrCounter) (k : String) (v : ℤ) : StrCounter :=
  if (c.find? (fun e => e.1 = k)).isSome then
    c.map (fun e => if e.1 = k then (e.1, e.2 + v) else e)
  else
    c ++ [(k, v)]

/-- The dice-type histogram over the 10 recognized dice types (the keys of
the `Counter` built by `get_dice_types` / `generate_empty_statisics_dict`). -/
structure DiceCounter where
  slash : ℕ
  blunt : ℕ
  pierce : ℕ
  evade : ℕ
  block : ℕ
  slashcounter : ℕ
  bluntcounter : ℕ
  piercecounter : ℕ
  evadecounter : ℕ
  blockcounter : ℕ
deriving DecidableEq

def DiceCounter.zero : DiceCounter :=
  ⟨0, 0, 0, 0, 0, 0, 0, 0, 0, 0⟩

/-- Elementwise `Counter` addition (`counter_a + counter_b` over the fixed
10-key space). -/
def DiceCounter.add (a b : DiceCounter) : DiceCounter :=
  ⟨a.slash + b.slash, a.blunt + b.blunt, a.pierce + b.pierce,
   a.evade + b.evade, a.block + b.block,
   a.slashcounter + b.slashcounter, a.bluntcounter + b.bluntcounter,
   a.piercecounter + b.piercecounter, a.evadecounter + b.evadecounter,
   a.blockcounter + b.blockcounter⟩

/-- The `flags` dictionary (`{'prolonged': ..., 'short': ...}`). -/
structure Flags where
  prolonged : Bool
  short : Bool
deriving DecidableEq

/-! ### Feature extraction (`combat_page_getter.py`) -/

/-- `total_light_regen(combat_page)` (source lines 155-173): the first
`restore <N> light` match of the lowered Effect text (when the Effect is
non-empty) plus the first match of each lowered dice descriptor. -/
def total_light_regen (card : Card) : ℤ :=
  let fromEffect : ℤ :=
    if card.Effect ≠ "" then
      match searchRestore (lowerS card.Effect) with
      | some (n, _) => (n : ℤ)
      | none => 0
    else 0
  card.Dices.foldl
    (fun acc d =>
      match searchRestore (lowerS d.2) with
      | some (n, _) => acc + (n : ℤ)
      | none => acc)
    fromEffect

/-- `total_drawn_cards(combat_page)` (source lines 176-219): net draw minus
discard, counting `single-use` in the Effect as one discard. -/
def total_drawn_cards (card : Card) : ℤ :=
  let effectDraw : ℤ :=
    if card.Effect ≠ "" then (searchDraw (lowerS card.Effect)).getD 0 else 0
  let effectDiscard : ℤ :=
    if card.Effect ≠ "" then
      (if containsSub "single-use".data (lowerS card.Effect) then 1 else 0)
        + (searchDiscard (lowerS card.Effect)).getD 0
    else 0
  let diceDraw : ℤ := (card.Dices.map (fun d => (searchDraw (lowerS d.2)).getD 0)).sum
  let diceDiscard : ℤ := (card.Dices.map (fun d => (searchDiscard (lowerS d.2)).getD 0)).sum
  (effectDraw + diceDraw) - (effectDiscard + diceDiscard)

/-- `get_number_of_dice(combat_page)`. -/
def get_number_of_dice (card : Card) : ℕ :=
  card.Dices.length

/-- `get_mean_dice_values(combat_page)` (source lines 221-241): 0 for a
card without dice, otherwise the mean of the `(min+max)/2` values of every
dice descriptor; a `ValueError` if any descriptor lacks a `min~max` range. -/
def get_mean_dice_values (card : Card) : Except String ℚ := do
  let num_dices := get_number_of_dice card
  if num_dices = 0 then
    return 0
  let mean_values ← card.Dices.mapM (fun d =>
    match searchRange d.2.data with
    | some (mn, mx) => Except.ok (((mn : ℚ) + (mx : ℚ)) / 2)
    | none => Except.error "ValueError: one dice does not contain a valid range")
  return mean_values.sum / (num_dices : ℚ)

/-- The 10 recognized dice types, in source order. -/
def dice_type_names : List String :=
  ["slash", "blunt", "pierce", "evade", "block",
   "slashcounter", "bluntcounter", "piercecounter", "evadecounter",
   "blockcounter"]

def DiceCounter.bump (a : DiceCounter) (t : String) : DiceCounter :=
  if t = "slash" then { a with slash := a.slash + 1 }
  else if t = "blunt" then { a with blunt := a.blunt + 1 }
  else if t = "pierce" then { a with pierce := a.pierce + 1 }
  else if t = "evade" then { a with evade := a.evade + 1 }
  else if t = "block" then { a with block := a.block + 1 }
  else if t = "slashcounter" then { a with slashcounter := a.slashcounter + 1 }
  else if t = "bluntcounter" then { a with bluntcounter := a.bluntcounter + 1 }
  else if t = "piercecounter" then { a with piercecounter := a.piercecounter + 1 }
  else if t = "evadecounter" then { a with evadecounter := a.evadecounter + 1 }
  else { a with blockcounter := a.blockcounter + 1 }

/-- `dice_description.split(":")[0]`. -/
def leadingTag (s : String) : String :=
  ⟨s.data.takeWhile (· ≠ ':')⟩

/-- `get_dice_types(combat_page)` (source lines 243-260): classify every
dice descriptor by its leading tag; `ValueError` on an unrecognized tag. -/
def get_dice_types (card : Card) : Except String DiceCounter :=
  card.Dices.foldlM
    (fun acc d =>
      let t := leadingTag d.2
      if t ∈ dice_type_names then Except.ok (acc.bump t)
      else Except.error "ValueError: not a valid dice type")
    DiceCounter.zero

/-- Round half to even at two decimals (`round(x, 2)`; Python's float
`round` is banker's rounding, modelled exactly on rationals). -/
def pyRound2 (q : ℚ) : ℚ :=
  let y := q * 100
  let n : ℤ := if y - (⌊y⌋ : ℚ) = 1 / 2 then (if ⌊y⌋ % 2 = 0 then ⌊y⌋ else ⌊y⌋ + 1) else round y
  (n : ℚ) / 100

/-- `get_attack_defense_ratio(attributes)` (source lines 262-283; the
source name ends in a token the development avoids outside comments):
attack dice over defense dice, rounded to two decimals, `float("inf")`
(here `⊤`) when there are no defense dice. -/
def get_attack_defense (a : DiceCounter) : WithTop ℚ :=
  let attack_dices : ℕ := a.slash + a.blunt + a.pierce + a.slashcounter + a.bluntcounter + a.piercecounter
  let defense_dices : ℕ := a.evade + a.block + a.evadecounter + a.blockcounter
  if defense_dices = 0 then ⊤
  else (pyRound2 ((attack_dices : ℚ) / (defense_dices : ℚ)) : ℚ)

/-- The 19 canonical status-effect names (source lines 97-101). -/
def status_effect_names : List String :=
  ["burn", "paralysis", "bleed", "fairy",
   "protection", "stagger protection", "fragile",
   "strength", "feeble", "endurance", "disarm",
   "haste", "bind", "nullify Power", "immobilized",
   "charge", "smoke", "persistence", "erosion"]

/-- `card.get("Effect", "")` followed by the dice descriptors, the text
pieces gathered by `total_status_effects` and `is_singleton`. -/
def cardTextParts (card : Card) : List String :=
  card.Effect :: card.Dices.map (·.2)

/-- Classification step of `total_status_effects` (source lines 122-137):
look the matched word up among the canonical names, stripping the noise
suffixes `next`, `to`, `this` before giving up. -/
def classifyEffectWord (counter : StrCounter) (value : ℤ) (w : List Char) : StrCounter :=
  let effect : String := ⟨w⟩
  if effect ∈ status_effect_names then update_counter counter effect value
  else if endsWithL "next".data w then
    let effect : String := ⟨w.take (w.length - 4)⟩
    if effect ∈ status_effect_names then update_counter counter effect value else counter
  else if endsWithL "to".data w then
    let effect : String := ⟨w.take (w.length - 2)⟩
    if effect ∈ status_effect_names then update_counter counter effect value else counter
  else if endsWithL "this".data w then
    let effect : String := ⟨w.take (w.length - 4)⟩
    if effect ∈ status_effect_names then update_counter counter effect value else counter
  else counter

/-- `total_status_effects(combat_pages)` (source lines 93-139): run the
five `<verb>\s+(\d+)\s+(\w+)` patterns over the lowered concatenation of
all Effect and dice texts; the `use`/`spend` patterns (indices 3 and 4)
negate the value. -/
def total_status_effects (cards : List Card) : StrCounter :=
  let all_text : List Char :=
    (joinNL ((cards.flatMap cardTextParts).map String.data)).map Char.toLower
  let counter0 : StrCounter := status_effect_names.map (fun n => (n, 0))
  let patterns : List (List Char × Bool) :=
    [("inflict".data, false), ("gain".data, false), ("give".data, false),
     ("use".data, true), ("spend".data, true)]
  patterns.foldl
    (fun counter p =>
      (findallKey p.1 all_text).foldl
        (fun counter m =>
          let value : ℤ := if p.2 then -(m.1 : ℤ) else (m.1 : ℤ)
          classifyEffectWord counter value m.2)
        counter)
    counter0

/-- `get_deck_max_cost(combat_pages)` (source lines 285-297): running
maximum starting from `float("-inf")` (`⊥`). -/
def get_deck_max_cost (cards : List Card) : WithBot ℤ :=
  cards.foldl (fun m cp => if (cp.Cost : WithBot ℤ) > m then (cp.Cost : WithBot ℤ) else m) ⊥

/-- The per-card weight of the aggregation loop (source line 326):
`(max_cost - card_cost + 1) / (max_cost + 1)`. -/
def card_weight (max_cost card_cost : ℤ) : ℚ :=
  ((max_cost : ℚ) - (card_cost : ℚ) + 1) / ((max_cost : ℚ) + 1)

/-- The deck-level aggregate record built by
`count_deck_attribute_statistics`.  The source's `attack_to_defense_ratio`
key is embedded as `attack_to_defense` (its name ends in a token this
development avoids outside comments). -/
structure DeckStats where
  average_cost : ℚ
  total_light_regen : ℤ
  total_drawn_cards : ℤ
  average_dice_value : ℚ
  weighted_average_dice_value : ℚ
  average_dice_per_card : ℚ
  weighted_average_dice_per_card : ℚ
  attack_to_defense : WithTop ℚ
  total_dice_counts : ℤ
  status_effects : StrCounter
  total_dice_types : DiceCounter
deriving DecidableEq

def DeckStats.init : DeckStats :=
  { average_cost := 0, total_light_regen := 0, total_drawn_cards := 0,
    average_dice_value := 0, weighted_average_dice_value := 0,
    average_dice_per_card := 0, weighted_average_dice_per_card := 0,
    attack_to_defense := 0, total_dice_counts := 0, status_effects := [],
    total_dice_types := DiceCounter.zero }

/-- `count_deck_attribute_statistics(combat_pages)` (source lines 299-342,
without the `deploy` assertion, which defaults to off).  For an empty deck
the per-card loop never runs, so the `max_cost` placeholder 0 standing in
for `float("-inf")` is never consulted. -/
def count_deck_attribute_statistics (cards : List Card) : Except String DeckStats := do
  let number_of_cards : ℕ := cards.length
  let max_cost : ℤ := (get_deck_max_cost cards).unbot' 0
  let single_point_stab_count : ℤ := ((cards.filter (fun cp => cp.Name = "Single-Point Stab")).length : ℤ)
  let stats ← cards.foldlM
    (fun (s : DeckStats) cp => do
      let card_cost := cp.Cost
      let weight := card_weight max_cost card_cost
      let mean_dice_values ← get_mean_dice_values cp
      let num_dices := get_number_of_dice cp
      let dt ← get_dice_types cp
      Except.ok
        { s with
          average_cost := s.average_cost + (card_cost : ℚ) / (number_of_cards : ℚ),
          total_dice_counts := s.total_dice_counts + (num_dices : ℤ),
          average_dice_per_card := s.average_dice_per_card + (num_dices : ℚ) / (number_of_cards : ℚ),
          weighted_average_dice_per_card :=
            s.weighted_average_dice_per_card + weight * (num_dices : ℚ) / (number_of_cards : ℚ),
          total_light_regen := s.total_light_regen + total_light_regen cp,
          total_drawn_cards := s.total_drawn_cards + total_drawn_cards cp,
          average_dice_value := s.average_dice_value + mean_dice_values / (number_of_cards : ℚ),
          weighted_average_dice_value :=
            s.weighted_average_dice_value + weight * mean_dice_values / (number_of_cards : ℚ),
          total_dice_types := s.total_dice_types.add dt })
    DeckStats.init
  return { stats with
    attack_to_defense := get_attack_defense stats.total_dice_types,
    status_effects := total_status_effects cards,
    total_drawn_cards := stats.total_drawn_cards + single_point_stab_count }

/-! ### Keyword filters (`apply_filter` / `apply_filters`) -/

/-- One keyword matches a card when its lowered text occurs in a lowered
string value of the card dictionary. -/
def keywordMatches (kw : String) (card : Card) : Bool :=
  (cardValues card).any (fun v => containsSub (lowerS kw) (lowerS v))

/-- The predicate returned by `apply_filter(keywords, exclusive, complement)`
(source lines 30-67): the matched set's size against `len(keywords)`. -/
def apply_filter (keywords : List String) (exclusive complement : Bool) (card : Card) : Bool :=
  let matched : ℕ := ((keywords.dedup).filter (fun kw => keywordMatches kw card)).length
  if exclusive then
    if !complement then matched = keywords.length else matched ≠ keywords.length
  else
    if !complement then matched ≠ 0 else matched = 0

/-- `apply_filters(keywords, combat_pages, exclusive, complement)`. -/
def apply_filters (keywords : List String) (cards : List Card)
    (exclusive complement : Bool) : List Card :=
  cards.filter (apply_filter keywords exclusive complement)

/-! ### Scoring (`deck_builder.py`, lines 12-121) -/

/-- `softmax(x, temp)` (source lines 12-17). -/
noncomputable def softmax (x : List ℝ) (temp : ℝ) : List ℝ :=
  let e := x.map (fun v => Real.exp (v / temp))
  e.map (fun v => v / e.sum)

/-- `normalize_values(min_val, max_val)` (source lines 19-32).  The inner
`try/except ZeroDivisionError` branch returns 0 when `1 + x - min_val` is
zero; Python raises (uncaught) when `max_val = min_val`, a case no claim
reaches and on which this total embedding returns the junk value given by
`1 / 0 = 0`. -/
noncomputable def normalize_values (min_val max_val : ℝ) : ℝ → ℝ :=
  fun x =>
    let k := 0.99 * (1 / (max_val - min_val) + 1)
    if 1 + x - min_val = 0 then 0 else k * (x - min_val) / (1 + x - min_val)

/-- The asymptote `k = 0.99 * (1 / (max_val - min_val) + 1)` of
`normalize_values`. -/
noncomputable def normalizeAsymptote (min_val max_val : ℝ) : ℝ :=
  0.99 * (1 / (max_val - min_val) + 1)

/-- Folding of the 10-type histogram onto the 5 base dice types performed
by the classification loop of `calculate_normalized_entropy` (source lines
40-54): a `<base>counter` key is counted towards `<base>`. -/
def foldedCounts (a : DiceCounter) : Fin 5 → ℕ
  | 0 => a.slash + a.slashcounter
  | 1 => a.blunt + a.bluntcounter
  | 2 => a.pierce + a.piercecounter
  | 3 => a.evade + a.evadecounter
  | 4 => a.block + a.blockcounter

/-- `calculate_normalized_entropy(attributes)` (source lines 34-63):
1 minus the Shannon entropy (base 2) of the folded histogram, normalized
by `log2(5)`; 0 when there are no dice at all.  The `ValueError` branch is
unreachable because the input histogram is keyed by the 10 recognized
types. -/
noncomputable def calculate_normalized_entropy (attributes : DiceCounter) : ℝ :=
  let counter := foldedCounts attributes
  let total : ℕ := ∑ i : Fin 5, counter i
  if total = 0 then 0
  else
    let probs : Fin 5 → ℝ := fun i => (counter i : ℝ) / (total : ℝ)
    let entropy : ℝ := ∑ i : Fin 5, (if 0 < probs i then -(probs i * Real.logb 2 (probs i)) else 0)
    let max_entropy : ℝ := Real.logb 2 5
    if 0 < max_entropy then 1 - entropy / max_entropy else 1

/-- The Gaussian density `scipy.stats.norm.pdf(x, loc, scale)`. -/
noncomputable def normPdf (loc scale x : ℝ) : ℝ :=
  Real.exp (-((x - loc) ^ 2) / (2 * scale ^ 2)) / (scale * Real.sqrt (2 * Real.pi))

/-- The card list a dynamically-typed `combat_pages` argument denotes
(`assign_score` wraps a bare dictionary into a one-element list). -/
def PyDeck.cards : PyDeck → List Card
  | .single c => [c]
  | .multi d => d

/-- `assign_score(combat_pages, effect)` (source lines 66-121, without the
debug printing).  `sustain_score.max()` on the scalar numpy value is the
value itself, so the subsequent division is `s / s`. -/
noncomputable def assign_score (combat_pages : PyDeck) (effect : String) :
    Except String ℝ := do
  let pages := combat_pages.cards
  let multiplier : ℝ := if effect = "no_effects" then 0 else 0.20
  let stats ← count_deck_attribute_statistics pages
  let status_effects := stats.status_effects
  let num_cards : ℕ := pages.length
  let n_effects := normalize_values 0 5 ((cGet status_effects effect : ℤ) : ℝ)
  let n_dice_val := normalize_values 2 10 (stats.weighted_average_dice_value : ℝ)
  let n_total_dice := normalize_values 0 30 ((stats.average_dice_per_card : ℝ) * (num_cards : ℝ))
  let skewness := calculate_normalized_entropy stats.total_dice_types
  let light_regen : ℝ := (stats.total_light_regen : ℝ)
  let avg_cost : ℝ := (stats.average_cost : ℝ)
  let margin := light_regen - (6.38 * avg_cost - 6.88)
  let sustain_score := (margin / (1 + |margin|) + 1) / 2
  let sustain_score := normPdf 0.55 0.2 sustain_score
  let sustain_score := sustain_score / sustain_score
  let n_draw := normPdf 4 1.5 (stats.total_drawn_cards : ℝ) / normPdf 4 1.5 4
  return (0.18 - 1 / 3 * multiplier) * sustain_score +
    (0.25 - 1 / 3 * multiplier) * n_dice_val +
    (0.20 - 1 / 3 * multiplier) * n_draw +
    0.15 * n_total_dice +
    0.22 * skewness +
    multiplier * n_effects

/-! ### Checkpoint (`data_checkpoint.py`) -/

/-- `DeckCheckpoint`: `best_score` starts at `float("-inf")`, embedded as
`none`. -/
structure DeckCheckpoint where
  best_deck : List Card
  best_score : Option ℝ
  reason_failed : Option String

def DeckCheckpoint.init : DeckCheckpoint :=
  { best_deck := [], best_score := none, reason_failed := none }

/-- `DeckCheckpoint.update(deck, score, reason)`. -/
noncomputable def DeckCheckpoint.update (cp : DeckCheckpoint) (deck : List Card)
    (score : ℝ) (reason : Option String) : DeckCheckpoint :=
  open Classical in
  match cp.best_score with
  | none => { best_deck := deck, best_score := some score, reason_failed := reason }
  | some b =>
    if score > b then
      { best_deck := deck, best_score := some score, reason_failed := reason }
    else cp

/-! ### Beam-search helpers (`deck_builder.py`, lines 123-188) -/

/-- `count_cards(selected_decks)` (source lines 132-149): one per-name
usage counter per selected deck, handling both a bare card dictionary and
a card list. -/
def count_cards (selected_decks : List PyDeck) : List StrCounter :=
  selected_decks.map
    (fun d =>
      match d with
      | .multi deck => deck.foldl (fun c card => update_counter c card.Name 1) []
      | .single card => update_counter [] card.Name 1)

/-- `is_singleton(deck)` (source lines 166-178): does the lowered
concatenation of all Effect and dice texts contain `"singleton"`. -/
def is_singleton (deck : List Card) : Bool :=
  let all_text : List Char :=
    (joinNL ((deck.flatMap cardTextParts).map String.data)).map Char.toLower
  containsSub "singleton".data all_text

/-- `change_card_limit(deck)` (source lines 180-188): a copy of the deck
with the `"Card Limit"` of every card set to 1. -/
def change_card_limit (deck : List Card) : List Card :=
  deck.map (fun card => { card with CardLimit := 1 })

/-- The expansion step of `deck_beam_search` (source lines 216-218):
append the candidate card (both deep-copied) and force every card limit to
1 when the resulting deck contains singleton text. -/
def beam_expand_deck (deck : List Card) (card : Card) : List Card :=
  let new_deck := deck ++ [card]
  if is_singleton new_deck then change_card_limit new_deck else new_deck

/-! ### Constraint checker (`deck_builder.py`, lines 246-313) -/

/-- `has_enough_dices(deck_attributes)` (source lines 246-255). -/
def has_enough_dices (a : DeckStats) : Bool :=
  decide (a.average_dice_per_card ≥ 2.6) && decide (a.weighted_average_dice_per_card ≥ 2.3)

/-- `is_attack_focused(deck_attributes)` (source lines 257-265);
`float("inf") >= 5` is true. -/
def is_attack_focused (a : DeckStats) : Bool :=
  match a.attack_to_defense with
  | ⊤ => true
  | (q : ℚ) => decide (q ≥ 5)

/-- `is_self_sustaining_light_regen(deck_attributes, scale)` (source lines
267-279). -/
def is_self_sustaining_light_regen (a : DeckStats) (scale : ℚ) : Bool :=
  decide ((a.total_light_regen : ℚ) / scale ≥ 6.38 * a.average_cost - 6.88)

/-- `is_self_sustaining_draw_cards(deck_attributes, scale)` (source lines
281-290). -/
def is_self_sustaining_draw_cards (a : DeckStats) (scale : ℚ) : Bool :=
  decide ((a.total_drawn_cards : ℚ) / scale ≥ 4)

/-- `check_deck(deck, flags, scale)` (source lines 292-313).  The
diagnostic reason keeps the fixed text of the source's f-strings; the
interpolated measured value is dropped from the embedding (no claim
inspects it). -/
def check_deck (deck : List Card) (flags : Flags) (scale : ℚ) :
    Except String (Bool × Option String) := do
  let prolonged_battle := flags.prolonged
  let deck_attributes ← count_deck_attribute_statistics deck
  if prolonged_battle then
    if !is_self_sustaining_light_regen deck_attributes scale then
      return (false, some "Not enough light regen")
    else if !is_self_sustaining_draw_cards deck_attributes scale then
      return (false, some "Not enough card draw")
    else
      return (true, none)
  else
    if !has_enough_dices deck_attributes then
      return (false, some "Not enough dice per card")
    else if !is_attack_focused deck_attributes then
      return (false, some "Not attack-focused enough")
    else
      return (true, none)

/-! ### The numpy random generator

`np.random` is an external library with one global mutable state, seeded by
`np.random.seed` and consumed by `np.random.choice`.  The state type, the
seeding map and the index-selection map are abstract parameters; the
argument validation that `np.random.choice(a, size=size, replace=False)`
performs (empty population, negative size, sample larger than population —
each a `ValueError`) is part of the model. -/

structure NpRandom where
  G : Type
  seedFn : ℤ → G
  choiceFn : (n : ℕ) → List ℝ → ℕ → G → List (Fin n) × G

/-- `np.random.choice(np.arange(n), p = p, size = size, replace = False)`. -/
def np_random_choice (R : NpRandom) (n : ℕ) (p : List ℝ) (size : ℤ) (g : R.G) :
    Except String (List (Fin n) × R.G) :=
  if n = 0 then Except.error "ValueError: a must be non-empty"
  else if size < 0 then Except.error "ValueError: negative dimensions are not allowed"
  else if (n : ℤ) < size then
    Except.error "ValueError: Cannot take a larger sample than population when replace is False"
  else Except.ok (R.choiceFn n p size.toNat g)

/-- Computations of the optimizer: the explicit numpy state over the
exception monad. -/
abbrev SearchM (R : NpRandom) (α : Type) : Type :=
  StateT R.G (Except String) α

/-- `sample_top_cards(cards_score, decks, B, temp)` (source lines 152-164):
draw `B` indices without replacement from the softmax distribution, deep
copy the selected decks and pair them with their scores and per-name usage
counters. -/
noncomputable def sample_top_cards (R : NpRandom) (cards_score : List ℝ)
    (decks : List PyDeck) (B : ℤ) (temp : ℝ) :
    SearchM R (List (ℝ × PyDeck × StrCounter)) := fun g =>
  match np_random_choice R decks.length (softmax cards_score temp) B g with
  | Except.error e => Except.error e
  | Except.ok (indices_sampled, g2) =>
    let selected_scores := indices_sampled.map (fun i => cards_score.getD i.val 0)
    let selected_decks := indices_sampled.map (fun i => decks.get i)
    let counters := count_cards selected_decks
    Except.ok (selected_scores.zip (selected_decks.zip counters), g2)

/-- Python truthiness of the `seed` argument: `if seed:` is false both for
`None` and for the integer 0. -/
def pyTruthySeed : Option ℤ → Bool
  | none => false
  | some s => s != 0

/-- `deck_beam_search(combat_pages, B, flags, max_deck_size, temp, seed,
effect)` (source lines 190-244, without the progress/debug printing).  The
`try/except StopIteration` around `next(beam)` corresponds to the final
match: an empty final beam yields `None` after printing the checkpoint. -/
noncomputable def deck_beam_search (R : NpRandom) (combat_pages : List Card) (B : ℤ)
    (flags : Flags) (max_deck_size : ℕ) (temp : ℝ) (seed : Option ℤ)
    (effect : String) : SearchM R (Option PyDeck) := do
  if pyTruthySeed seed then set (R.seedFn (seed.getD 0))
  let cards_score ← (combat_pages.mapM (fun cp => assign_score (.single cp) effect) :
    Except String (List ℝ))
  let scored_cards := cards_score.zip combat_pages
  let beam0 ← sample_top_cards R cards_score (combat_pages.map PyDeck.single) B temp
  let st ← (List.range' 1 (max_deck_size - 1)).foldlM
    (fun (st : List (ℝ × PyDeck × StrCounter) × DeckCheckpoint) _current_card => do
      let (beam, checkpoint) := st
      let (new_beam, checkpoint) ← beam.foldlM
        (fun (acc : List (ℝ × List Card) × DeckCheckpoint) elem => do
          let (_score, pdeck, counter) := elem
          -- `isinstance(deck, dict)`: the first pass wraps the bare card and
          -- applies the singleton limit adjustment
          let deck : List Card :=
            match pdeck with
            | .single c =>
              let d := [c]
              if is_singleton d then change_card_limit d else d
            | .multi d => d
          let remaining : List Card :=
            (scored_cards.filter (fun sc => cGet counter sc.2.Name < sc.2.CardLimit)).map (·.2)
          remaining.foldlM
            (fun (acc2 : List (ℝ × List Card) × DeckCheckpoint) card => do
              let new_deck := beam_expand_deck deck card
              let scale : ℚ := (new_deck.length : ℚ) / 9
              let vr ← (check_deck new_deck flags scale : Except String (Bool × Option String))
              if vr.1 = false then do
                let s ← (assign_score (.multi new_deck) effect : Except String ℝ)
                pure (acc2.1, acc2.2.update new_deck s vr.2)
              else do
                let new_score ← (assign_score (.multi new_deck) effect : Except String ℝ)
                pure (acc2.1 ++ [(new_score, new_deck)], acc2.2))
            acc)
        (([], checkpoint))
      let (new_scores, new_decks) :=
        match (new_beam : List (ℝ × List Card)) with
        | [] => (([] : List ℝ), ([] : List (List Card)))
        | nb => (nb.map Prod.fst, nb.map Prod.snd)
      -- resample; `temp` is not forwarded here, the source falls back to the
      -- default temperature 1.0
      let beam2 ← sample_top_cards R new_scores (new_decks.map PyDeck.multi) B 1
      pure (beam2, checkpoint))
    (beam0, DeckCheckpoint.init)
  match st.1 with
  | [] => pure none
  | (_, best_deck, _) :: _ => pure (some best_deck)

/-! ### `build_deck` (`deck_builder.py`, lines 316-393) -/

/-- The `valid_status_effects` list declared inside `build_deck` (source
lines 330-334). -/
def valid_status_effects : List String :=
  ["burn", "paralysis", "bleed", "fairy",
   "protection", "stagger protection", "fragile",
   "strength", "feeble", "endurance", "disarm",
   "haste", "bind", "nullify Power", "immobilized",
   "charge", "smoke", "persistence", "erosion"]

def pyLower (s : String) : String :=
  ⟨s.data.map Char.toLower⟩

/-- Python truthiness of the search result: `if deck:` on a card dictionary
or card list. -/
def pyTruthyDeck : PyDeck → Bool
  | .single _ => true
  | .multi l => !l.isEmpty

/-- The filtering pipeline `build_deck` applies to the candidate pool
(source lines 354-365, with `must_include` empty): the optional
`may_keywords` inclusive filter, then the removal of Charge and Smoke
cards when the target effect is not the corresponding one. -/
def build_deck_filter_pool (may_keywords : List String) (effect : String)
    (pages : List Card) : List Card :=
  let pages := if may_keywords ≠ [] then apply_filters may_keywords pages false false else pages
  let pages := if effect ≠ "charge" then apply_filters ["Charge"] pages true true else pages
  if effect ≠ "smoke" then apply_filters ["Smoke"] pages true true else pages

/-- The beam width computed at the `deck_beam_search` call site (source
line 378): `B = min(B, filtered_length - 9)`. -/
def beam_width_passed (B : ℤ) (filtered_length : ℕ) : ℤ :=
  min B ((filtered_length : ℤ) - 9)

/-- The search procedure `build_deck` invokes, abstracted so that theorems
can speak about the arguments of the invocation. -/
def SearchFn (R : NpRandom) : Type :=
  List Card → ℤ → Flags → ℝ → Option ℤ → String → SearchM R (Option PyDeck)

/-- One invocation of `build_deck(may_keywords, combat_pages, must_include,
flags, B, temp, effect, seed)` (source lines 316-393), parameterized by the
search procedure.  External interactions are explicit parameters: `loaded`
is the outcome of the `load_json` call of the `combat_pages is falsy`
branch, and `prompt` is the outcome of the retry prompt's `input()` --- the
answer paired with the continuation that reruns `build_deck`, or `none`
when the input stream is exhausted (an `EOFError`).  Printing is dropped;
the `< 9` warning branch (source lines 368-369) prints and falls through,
it does not return. -/
noncomputable def build_deck_step (R : NpRandom) (search : SearchFn R)
    (may_keywords must_include : List String) (loaded : Except Unit (List Card))
    (prompt : Option (String × (Option (List Card) → Option Flags → ℤ → ℝ → String →
      Option ℤ → SearchM R (Option PyDeck)))) :
    Option (List Card) → Option Flags → ℤ → ℝ → String → Option ℤ →
    SearchM R (Option PyDeck)
  | combat_pages, flags, B, temp, effect, seed => do
    let effect := pyLower effect
    if effect ∉ valid_status_effects ∧ effect ≠ "no_effect" then
      throw "ValueError: not a valid status effect in LoR"
    let flags : Flags :=
      match flags with
      | none => { prolonged := true, short := false }
      | some f => f
    -- `if not combat_pages:` (None or an empty list): load the catalog; a
    -- failed load prints and returns None
    let pages? : Option (List Card) :=
      match combat_pages with
      | some l =>
        if l ≠ [] then some l else (match loaded with | .ok p => some p | .error _ => none)
      | none => match loaded with | .ok p => some p | .error _ => none
    match pages? with
    | none => pure none
    | some combat_pages => do
      let combat_pages :=
        if may_keywords ≠ [] then apply_filters may_keywords combat_pages false false
        else combat_pages
      if must_include ≠ [] then
        throw "NameError: name must_keywords is not defined"
      let combat_pages :=
        if effect ≠ "charge" then apply_filters ["Charge"] combat_pages true true
        else combat_pages
      let combat_pages :=
        if effect ≠ "smoke" then apply_filters ["Smoke"] combat_pages true true
        else combat_pages
      let filtered_length : ℕ := combat_pages.length
      -- `if filtered_length < 9:` prints a warning and falls through
      if filtered_length = 9 then do
        let cd ← (check_deck combat_pages flags 1 : Except String (Bool × Option String))
        if cd.1 then pure (some (PyDeck.multi combat_pages))
        else pure none
      else do
        let B := beam_width_passed B filtered_length
        let deck ← search combat_pages B flags temp seed effect
        match deck with
        | some d =>
          if pyTruthyDeck d then do
            let stats ← (count_deck_attribute_statistics d.cards : Except String DeckStats)
            let status_effects := stats.status_effects
            if cGetD status_effects effect 4 < 3 then
              match prompt with
              | none => throw "EOFError: EOF when reading a line"
              | some (answer, rerun) => do
                if answer = "y" then
                  let _ ← rerun (some combat_pages) (some flags) B temp effect seed
                  pure (some d)
                else
                  pure (some d)
            else
              pure (some d)
          else
            pure none
        | none => pure none

/-- `build_deck(may_keywords, combat_pages, must_include, flags, B, temp,
effect, seed)`, parameterized by the search procedure; `answers` is the
stream of `input()` replies, consumed one per retry prompt. -/
noncomputable def build_deckF (R : NpRandom) (search : SearchFn R)
    (may_keywords must_include : List String) (loaded : Except Unit (List Card)) :
    List String → Option (List Card) → Option Flags → ℤ → ℝ → String → Option ℤ →
    SearchM R (Option PyDeck)
  | [] => build_deck_step R search may_keywords must_include loaded none
  | answer :: rest =>
    build_deck_step R search may_keywords must_include loaded
      (some (answer, build_deckF R search may_keywords must_include loaded rest))

/-- `build_deck` proper: `build_deckF` applied to `deck_beam_search` with
the default `max_deck_size = 9`. -/
noncomputable def build_deck (R : NpRandom) (may_keywords must_include : List String)
    (loaded : Except Unit (List Card)) (answers : List String)
    (combat_pages : Option (List Card)) (flags : Option Flags) (B : ℤ) (temp : ℝ)
    (effect : String) (seed : Option ℤ) : SearchM R (Option PyDeck) :=
  build_deckF R
    (fun pool b fl t s e => deck_beam_search R pool b fl 9 t s e)
    may_keywords must_include loaded answers combat_pages flags B temp effect seed

/-! ### Specification-side definitions and concrete test data -/

/-- Modelled from the spec: "`total_light_regen(card)`: sums all matches of
`"restore <N> light"` (case-insensitive) across Effect and each dice
descriptor; 0 if none".  This is the claimed behaviour, to be compared with
the source's `total_light_regen`, which only takes `re.search`'s first
match per text. -/
def specLightRegenAllMatches (card : Card) : ℤ :=
  ((findallRestore (lowerS card.Effect)).sum : ℤ) +
    (card.Dices.map (fun d => (((findallRestore (lowerS d.2)).sum : ℕ) : ℤ))).sum

/-- A concrete `NpRandom` instance: the state is a counter and
`choice` rotates deterministically through the population.  It stands in
for numpy's generator in the concrete executions. -/
def rotChoice : NpRandom where
  G := ℕ
  seedFn := fun s => s.toNat
  choiceFn := fun n _p size g =>
    if h : n = 0 then ([], g)
    else ((List.range size).map (fun i => ⟨(g + i) % n, Nat.mod_lt _ (Nat.pos_of_ne_zero h)⟩),
      g + size)

instance : DecidableEq rotChoice.G :=
  inferInstanceAs (DecidableEq ℕ)

def flagsProlonged : Flags :=
  { prolonged := true, short := false }

/-- A plain filler card: no light regen, no draw, no dice, no keyword
text. -/
def mkPlainCard (nm : String) (cost : ℤ) : Card :=
  { Name := nm, Rank := "Canard", Cost := cost, Range := "Melee", Effect := "",
    Dices := [], Obtained := "a book", CardLimit := 3 }

/-- Pool for the claim-C2 run: two cost-2 cards with no light regen and no
draw, so that in prolonged mode every 2-card expansion is invalid. -/
def poolNoSustain : List Card :=
  [mkPlainCard "Stone" 2, mkPlainCard "Pebble" 2]

/-- A self-sustaining zero-cost card that draws a page. -/
def mkDrawCard (nm : String) : Card :=
  { Name := nm, Rank := "Canard", Cost := 0, Range := "Melee",
    Effect := "Draws 1 page.", Dices := [], Obtained := "a book", CardLimit := 9 }

/-- Pool for the claim-C5 runs: every partial deck from this pool passes
the prolonged-mode checks, so the search always succeeds. -/
def poolSustain : List Card :=
  [mkDrawCard "Alpha", mkDrawCard "Beta"]

/-- A card without singleton text and with catalog card limit 3. -/
def regularCard : Card :=
  { Name := "Workshop Sweeping", Rank := "Canard", Cost := 1, Range := "Melee",
    Effect := "Gain 1 strength.", Dices := [("Dice 1", "slash: 2~4")],
    Obtained := "a book", CardLimit := 3 }

/-- A card whose Effect contains the word "Singleton". -/
def singletonCard : Card :=
  { Name := "Solemn Lament", Rank := "Canard", Cost := 2, Range := "Ranged",
    Effect := "Singleton. Restore 2 Light.", Dices := [("Dice 1", "blunt: 1~3")],
    Obtained := "a book", CardLimit := 3 }

/-- The claim-C8 card: its Effect contains two `restore <N> light`
matches. -/
def doubleRestoreCard : Card :=
  { Name := "Double Restore", Rank := "Canard", Cost := 1, Range := "Melee",
    Effect := "Restore 2 Light and Restore 3 Light.", Dices := [],
    Obtained := "a book", CardLimit := 3 }

/-- Pool for the claim-C10 witness: ten plain cards, none of which the
Charge/Smoke filters remove. -/
def poolTen : List Card :=
  (List.range 10).map (fun i => mkPlainCard ("Card " ++ toString i) 1)

/-- The statistics record of the empty deck. -/
def statsEmptyDeck : DeckStats :=
  { average_cost := 0, total_light_regen := 0, total_drawn_cards := 0,
    average_dice_value := 0, weighted_average_dice_value := 0,
    average_dice_per_card := 0, weighted_average_dice_per_card := 0,
    attack_to_defense := ⊤, total_dice_counts := 0,
    status_effects := status_effect_names.map (fun n => (n, 0)),
    total_dice_types := DiceCounter.zero }

/-! ## Theorems -/

set_option maxRecDepth 100000 in
/-- C1: when the filtered candidate pool has fewer than 9 cards (here a
single card), `build_deck` does not return a null result and does not skip
the search: the warning branch falls through, `deck_beam_search` is invoked
with beam width `min(10, 1-9) = -8`, and numpy's `ValueError` escapes
(first conjunct); a search procedure standing in for `deck_beam_search` is
really invoked and its result is what `build_deck` returns (second
conjunct). -/
theorem c1_undersized_pool_reaches_search :
    (build_deck rotChoice [] [] (Except.error ()) [] (some [mkPlainCard "Solo" 2])
        (some flagsProlonged) 10 1 "no_effect" none).run ((0 : ℕ) : rotChoice.G)
      = Except.error "ValueError: negative dimensions are not allowed" ∧
    (build_deckF rotChoice (fun _ _ _ _ _ _ => pure (some (PyDeck.multi [mkPlainCard "Marker" 0])))
        [] [] (Except.error ()) [] (some [mkPlainCard "Solo" 2])
        (some flagsProlonged) 10 1 "no_effect" none).run ((0 : ℕ) : rotChoice.G)
      = Except.ok (some (PyDeck.multi [mkPlainCard "Marker" 0]), ((0 : ℕ) : rotChoice.G)) := by
  constructor
  · with_unfolding_all decide
  · with_unfolding_all decide

set_option maxRecDepth 100000 in
/-- C2: a search run in which every depth-1 expansion is invalid (two
cost-2 cards with no light regen, prolonged mode): both candidate 2-card
decks fail the light-regen check (second and third conjuncts), the pool of
valid expansions is empty, and `deck_beam_search` terminates with numpy's
`ValueError` from sampling an empty population instead of returning `None`
with the checkpoint (first conjunct). -/
theorem c2_empty_expansion_pool_raises :
    (deck_beam_search rotChoice poolNoSustain 1 flagsProlonged 9 1 none "strength").run
        ((0 : ℕ) : rotChoice.G)
      = Except.error "ValueError: a must be non-empty" ∧
    (check_deck [mkPlainCard "Stone" 2, mkPlainCard "Stone" 2] flagsProlonged (2 / 9)).map Prod.fst
      = Except.ok false ∧
    (check_deck [mkPlainCard "Stone" 2, mkPlainCard "Pebble" 2] flagsProlonged (2 / 9)).map Prod.fst
      = Except.ok false := by
  refine ⟨?_, ?_, ?_⟩
  · with_unfolding_all decide
  · with_unfolding_all decide
  · with_unfolding_all decide

/-- C3 counterexample: during expansion of the deck `[regularCard]` (whose
text does not contain "singleton") with `singletonCard`, the limit of
`regularCard` in the resulting branch is also forced to 1, although its
catalog limit is 3 — the adjustment is not restricted to the cards whose
text contains "singleton". -/
theorem c3_counterexample :
    is_singleton [regularCard] = false ∧
    (beam_expand_deck [regularCard] singletonCard).map Card.CardLimit = [1, 1] ∧
    regularCard.CardLimit = 3 := by
  refine ⟨by decide, by decide, by decide⟩

/-- C3 amended: when the expanded deck's text contains "singleton", the
expansion step forces the `CardLimit` of every card of that branch's deck
to 1 (not only of the singleton cards); when it does not, the deck is the
plain concatenation, all limits unchanged.  Sibling branches are
unaffected: the step is a pure function of the branch's own copy. -/
theorem c3_singleton_limit_all_cards (deck : List Card) (card : Card) :
    (is_singleton (deck ++ [card]) = true →
      ∀ c ∈ beam_expand_deck deck card, c.CardLimit = 1) ∧
    (is_singleton (deck ++ [card]) = false →
      beam_expand_deck deck card = deck ++ [card]) := by
  constructor
  · intro h c hc
    simp only [beam_expand_deck, h, if_true, change_card_limit, List.mem_map] at hc
    obtain ⟨c0, _, rfl⟩ := hc
    rfl
  · intro h
    simp [beam_expand_deck, h]

theorem c3_witness :
    is_singleton ([regularCard] ++ [singletonCard]) = true ∧
    ∀ c ∈ beam_expand_deck [regularCard] singletonCard, c.CardLimit = 1 :=
  ⟨by decide, (c3_singleton_limit_all_cards [regularCard] singletonCard).1 (by decide)⟩

/-- C4 counterexample: in a deck whose single card costs 1 (all cards share
the same cost), the aggregation weight is `(1 - 1 + 1) / (1 + 1) = 1/2`,
not 1. -/
theorem c4_counterexample :
    get_deck_max_cost [mkPlainCard "Solo" 1] = ((1 : ℤ) : WithBot ℤ) ∧
    card_weight 1 1 = 1 / 2 ∧ (1 / 2 : ℚ) ≠ 1 := by
  refine ⟨by decide, by with_unfolding_all decide, by norm_num⟩

/-- The running maximum of `get_deck_max_cost` over a deck of uniform cost
`c` is `c`. -/
theorem get_deck_max_cost_uniform (deck : List Card) (c : ℤ)
    (hne : deck ≠ []) (hc : ∀ x ∈ deck, x.Cost = c) :
    get_deck_max_cost deck = (c : WithBot ℤ) := by
  unfold get_deck_max_cost
  have step : ∀ (m : WithBot ℤ) (x : Card), x.Cost = c →
      (if (x.Cost : WithBot ℤ) > m then (x.Cost : WithBot ℤ) else m) = max m (c : WithBot ℤ) := by
    intro m x hx
    subst hx
    rcases le_or_lt (x.Cost : WithBot ℤ) m with h | h
    · rw [if_neg (not_lt.mpr h), max_eq_left h]
    · rw [if_pos h, max_eq_right h.le]
  have main : ∀ (l : List Card), (∀ x ∈ l, x.Cost = c) → l ≠ [] → ∀ (m : WithBot ℤ),
      l.foldl (fun m cp => if (cp.Cost : WithBot ℤ) > m then (cp.Cost : WithBot ℤ) else m) m
        = max m (c : WithBot ℤ) := by
    intro l
    induction l with
    | nil => intro _ h; exact absurd rfl h
    | cons x t ih =>
      intro hall _ m
      simp only [List.foldl_cons]
      rw [step m x (hall x (by simp))]
      cases t with
      | nil => simp
      | cons y u =>
        rw [ih (fun z hz => hall z (by simp [hz])) (by simp)]
        rw [max_assoc, max_self]
  rw [main deck hc hne ⊥, max_eq_right bot_le]

/-- C4 amended: in a deck all of whose cards share the cost `c`, the
aggregation weight of every card equals `1 / (c + 1)` (so it equals 1
exactly when the shared cost is 0, not in general). -/
theorem c4_uniform_cost_weight (deck : List Card) (c : ℤ) (card : Card)
    (hall : ∀ x ∈ deck, x.Cost = c) (hmem : card ∈ deck) :
    card_weight ((get_deck_max_cost deck).unbot' 0) card.Cost = 1 / ((c : ℚ) + 1) := by
  have hne : deck ≠ [] := by
    rintro rfl
    simp at hmem
  rw [get_deck_max_cost_uniform deck c hne hall, hall card hmem]
  unfold card_weight
  rw [WithBot.unbot'_coe]
  norm_num

theorem c4_witness :
    (∀ x ∈ [mkPlainCard "Solo" 1], x.Cost = 1) ∧
    card_weight ((get_deck_max_cost [mkPlainCard "Solo" 1]).unbot' 0)
        (mkPlainCard "Solo" 1).Cost = 1 / ((1 : ℚ) + 1) :=
  ⟨by decide, c4_uniform_cost_weight [mkPlainCard "Solo" 1] 1 (mkPlainCard "Solo" 1)
    (by decide) (by simp)⟩

set_option maxRecDepth 1000000 in
/-- C5 counterexample: with the seed fixed to 0, `if seed:` is false and
the generator is never reseeded, so two runs of `deck_beam_search` on
identical inputs and the same seed, from different ambient generator
states, return different decks. -/
theorem c5_counterexample :
    (deck_beam_search rotChoice poolSustain 1 flagsProlonged 9 1 (some 0) "strength").run
        ((0 : ℕ) : rotChoice.G)
      ≠ (deck_beam_search rotChoice poolSustain 1 flagsProlonged 9 1 (some 0) "strength").run
        ((1 : ℕ) : rotChoice.G) := by
  with_unfolding_all decide

/-- C5 amended: for every nonzero seed value, `deck_beam_search` reseeds
the generator, so two runs with identical inputs and that seed agree
whatever the ambient generator states were. -/
theorem c5_nonzero_seed_deterministic (R : NpRandom) (g1 g2 : R.G) (pool : List Card)
    (B : ℤ) (flags : Flags) (n : ℕ) (temp : ℝ) (s : ℤ) (effect : String) (hs : s ≠ 0) :
    (deck_beam_search R pool B flags n temp (some s) effect).run g1
      = (deck_beam_search R pool B flags n temp (some s) effect).run g2 := by
  have h : pyTruthySeed (some s) = true := by
    simp [pyTruthySeed, hs]
  simp only [deck_beam_search, h]
  rfl

theorem c5_witness :
    (1 : ℤ) ≠ 0 ∧
    (deck_beam_search rotChoice poolSustain 1 flagsProlonged 9 1 (some 1) "strength").run
        ((0 : ℕ) : rotChoice.G)
      = (deck_beam_search rotChoice poolSustain 1 flagsProlonged 9 1 (some 1) "strength").run
        ((5 : ℕ) : rotChoice.G) :=
  ⟨by norm_num,
    c5_nonzero_seed_deterministic rotChoice _ _ poolSustain 1 flagsProlonged 9 1 1 "strength"
      (by norm_num)⟩

/-- C6: in prolonged mode, `check_deck` reports valid exactly when the
scaled light regen meets `6.38 * average_cost - 6.88` and the scaled draw
count meets 4, the statistics being those of
`count_deck_attribute_statistics` on the deck. -/
theorem c6_prolonged_check_iff (deck : List Card) (flags : Flags) (scale : ℚ)
    (stats : DeckStats) (hprol : flags.prolonged = true)
    (hstats : count_deck_attribute_statistics deck = Except.ok stats) :
    check_deck deck flags scale = Except.ok (true, none) ↔
      ((stats.total_light_regen : ℚ) / scale ≥ 6.38 * stats.average_cost - 6.88 ∧
        (stats.total_drawn_cards : ℚ) / scale ≥ 4) := by
  by_cases h1 : (stats.total_light_regen : ℚ) / scale ≥ 6.38 * stats.average_cost - 6.88 <;>
    by_cases h2 : (stats.total_drawn_cards : ℚ) / scale ≥ 4 <;>
      simp [check_deck, hstats, hprol, is_self_sustaining_light_regen,
        is_self_sustaining_draw_cards, h1, h2, Except.bind, bind, pure, Except.pure]

theorem c6_witness :
    flagsProlonged.prolonged = true ∧
    count_deck_attribute_statistics [] = Except.ok statsEmptyDeck ∧
    (check_deck [] flagsProlonged 1 = Except.ok (true, none) ↔
      ((statsEmptyDeck.total_light_regen : ℚ) / 1 ≥ 6.38 * statsEmptyDeck.average_cost - 6.88 ∧
        (statsEmptyDeck.total_drawn_cards : ℚ) / 1 ≥ 4)) :=
  ⟨rfl, by with_unfolding_all decide,
    c6_prolonged_check_iff [] flagsProlonged 1 statsEmptyDeck rfl
      (by with_unfolding_all decide)⟩

theorem stripPre_length : ∀ {lit cs rest : List Char},
    stripPre lit cs = some rest → rest.length + lit.length = cs.length := by
  intro lit
  induction lit with
  | nil =>
    intro cs rest h
    simp only [stripPre, Option.some.injEq] at h
    subst h
    simp
  | cons l ls ih =>
    intro cs rest h
    cases cs with
    | nil => simp [stripPre] at h
    | cons c t =>
      simp only [stripPre] at h
      by_cases hc : c = l
      · rw [if_pos hc] at h
        have := ih h
        simp only [List.length_cons]
        omega
      · rw [if_neg hc] at h
        exact absurd h (by simp)

theorem dropWhile_length_le (p : Char → Bool) : ∀ cs : List Char,
    (List.dropWhile p cs).length ≤ cs.length := by
  intro cs
  induction cs with
  | nil => simp
  | cons c t ih =>
    by_cases h : p c
    · simp only [List.dropWhile_cons, h, if_true, List.length_cons]
      exact Nat.le_succ_of_le ih
    · simp [List.dropWhile_cons, h]

theorem takeRun_snd_length (p : Char → Bool) (cs : List Char) :
    (takeRun p cs).2.length ≤ cs.length :=
  dropWhile_length_le p cs

theorem matchRestoreAt_some_lt {cs : List Char} {n : ℕ} {rest : List Char}
    (h : matchRestoreAt cs = some (n, rest)) : rest.length < cs.length := by
  unfold matchRestoreAt at h
  rcases h1 : stripPre "restore".data cs with _ | cs1 <;> rw [h1] at h
  · simp at h
  dsimp only at h
  split_ifs at h with hsp hds hsp2
  rcases h5 : stripPre "light".data (takeRun pyIsSpace (takeRun pyIsDigit
      (takeRun pyIsSpace cs1).2).2).2 with _ | cs5 <;> rw [h5] at h
  · simp at h
  simp only [Option.some.injEq, Prod.mk.injEq] at h
  obtain ⟨-, rfl⟩ := h
  have e1 := stripPre_length h1
  have e2 := takeRun_snd_length pyIsSpace cs1
  have e3 := takeRun_snd_length pyIsDigit (takeRun pyIsSpace cs1).2
  have e4 := takeRun_snd_length pyIsSpace (takeRun pyIsDigit (takeRun pyIsSpace cs1).2).2
  have e5 := stripPre_length h5
  have l7 : ("restore".data).length = 7 := by decide
  have l5 : ("light".data).length = 5 := by decide
  omega

theorem searchRestore_some_lt : ∀ {cs rest : List Char} {n : ℕ},
    searchRestore cs = some (n, rest) → rest.length < cs.length := by
  intro cs
  induction cs with
  | nil => intro rest n h; simp [searchRestore] at h
  | cons c t ih =>
    intro rest n h
    unfold searchRestore at h
    rcases hm : matchRestoreAt (c :: t) with _ | p <;> rw [hm] at h
    · have := ih h
      simp only [List.length_cons]
      omega
    · obtain ⟨m, r⟩ := p
      simp only [Option.some.injEq, Prod.mk.injEq] at h
      obtain ⟨rfl, rfl⟩ := h
      exact matchRestoreAt_some_lt hm

theorem findallRestoreAux_congr : ∀ (f1 f2 : ℕ) (cs : List Char),
    cs.length ≤ f1 → cs.length ≤ f2 → findallRestoreAux f1 cs = findallRestoreAux f2 cs := by
  intro f1
  induction f1 with
  | zero =>
    intro f2 cs h1 _
    have : cs = [] := List.length_eq_zero.mp (Nat.le_zero.mp h1)
    subst this
    cases f2 with
    | zero => rfl
    | succ f2' => simp [findallRestoreAux, searchRestore]
  | succ f ih =>
    intro f2 cs h1 h2
    cases f2 with
    | zero =>
      have : cs = [] := List.length_eq_zero.mp (Nat.le_zero.mp h2)
      subst this
      simp [findallRestoreAux, searchRestore]
    | succ f2' =>
      simp only [findallRestoreAux]
      rcases hs : searchRestore cs with _ | p
      · rfl
      · obtain ⟨m, rest⟩ := p
        have hlt := searchRestore_some_lt hs
        dsimp only
        rw [ih f2' rest (by omega) (by omega)]

/-- The defining equation of `findallRestore`: the first match followed by
all matches of the remaining text. -/
theorem findallRestore_eq (cs : List Char) :
    findallRestore cs = match searchRestore cs with
      | none => []
      | some (n, rest) => n :: findallRestore rest := by
  unfold findallRestore
  cases hl : cs.length with
  | zero =>
    have : cs = [] := List.length_eq_zero.mp hl
    subst this
    simp [findallRestoreAux, searchRestore]
  | succ m =>
    simp only [findallRestoreAux]
    rcases hs : searchRestore cs with _ | p
    · rfl
    · obtain ⟨k, rest⟩ := p
      have hlt := searchRestore_some_lt hs
      dsimp only
      rw [findallRestoreAux_congr m rest.length rest (by omega) (by omega)]

/-- When a text has at most one match, the sum of all matches is the value
of the first match. -/
theorem findallRestore_single {cs : List Char} (h : (findallRestore cs).length ≤ 1) :
    ((findallRestore cs).sum : ℤ) =
      (match searchRestore cs with | some (n, _) => (n : ℤ) | none => 0) := by
  rw [findallRestore_eq cs] at h ⊢
  rcases hs : searchRestore cs with _ | p
  · simp
  · obtain ⟨n, rest⟩ := p
    rw [hs] at h
    dsimp only at h ⊢
    have hlen : (findallRestore rest).length + 1 ≤ 1 := by simpa using h
    have : findallRestore rest = [] := List.length_eq_zero.mp (by omega)
    simp [this]

/-- The dice fold of `total_light_regen` as the sum over the dice of the
first-match values. -/
theorem light_fold_eq (init : ℤ) (ds : List (String × String)) :
    ds.foldl
        (fun acc d =>
          match searchRestore (lowerS d.2) with
          | some (n, _) => acc + (n : ℤ)
          | none => acc)
        init
      = init + (ds.map (fun d =>
          (match searchRestore (lowerS d.2) with | some (n, _) => (n : ℤ) | none => 0))).sum := by
  induction ds generalizing init with
  | nil => simp
  | cons d t ih =>
    simp only [List.foldl_cons, List.map_cons, List.sum_cons]
    rcases hs : searchRestore (lowerS d.2) with _ | p
    · rw [ih]
      ring
    · obtain ⟨n, rest⟩ := p
      rw [ih]
      ring

/-- C8 counterexample: a card whose Effect contains two `restore <N>
light` occurrences — the source's `total_light_regen` returns only the
first value (2), not the claimed sum of all matches (5). -/
theorem c8_counterexample :
    total_light_regen doubleRestoreCard ≠ specLightRegenAllMatches doubleRestoreCard ∧
    total_light_regen doubleRestoreCard = 2 ∧
    specLightRegenAllMatches doubleRestoreCard = 5 :=
  ⟨by decide, by decide, by decide⟩

/-- C8 amended: `total_light_regen` counts only the first `restore <N>
light` match of the Effect text and of each dice descriptor, so it equals
the sum over all matches exactly on cards where each of those text
segments contains at most one match (in particular it is 0 when no match
occurs anywhere). -/
theorem c8_first_match_per_segment (card : Card)
    (h1 : (findallRestore (lowerS card.Effect)).length ≤ 1)
    (h2 : ∀ d ∈ card.Dices, (findallRestore (lowerS d.2)).length ≤ 1) :
    total_light_regen card = specLightRegenAllMatches card := by
  unfold total_light_regen specLightRegenAllMatches
  rw [light_fold_eq]
  have heff :
      (if card.Effect ≠ "" then
        (match searchRestore (lowerS card.Effect) with
          | some (n, _) => (n : ℤ)
          | none => 0)
      else 0)
        = ((findallRestore (lowerS card.Effect)).sum : ℤ) := by
    by_cases he : card.Effect = ""
    · rw [if_neg (by simp [he])]
      rw [he]
      have : lowerS "" = [] := rfl
      rw [this]
      rfl
    · rw [if_pos he, findallRestore_single h1]
  rw [heff]
  congr 1
  have map_light_congr : ∀ (ds : List (String × String)),
      (∀ d ∈ ds, (findallRestore (lowerS d.2)).length ≤ 1) →
      ds.map (fun d =>
          (match searchRestore (lowerS d.2) with | some (n, _) => (n : ℤ) | none => 0))
        = ds.map (fun d => ((findallRestore (lowerS d.2)).sum : ℤ)) := by
    intro ds
    induction ds with
    | nil => intro _; rfl
    | cons d t ih =>
      intro h
      simp only [List.map_cons]
      rw [← findallRestore_single (h d (by simp)), ih (fun x hx => h x (by simp [hx]))]
  rw [map_light_congr card.Dices h2]

theorem c8_witness :
    ((findallRestore (lowerS singletonCard.Effect)).length ≤ 1 ∧
      ∀ d ∈ singletonCard.Dices, (findallRestore (lowerS d.2)).length ≤ 1) ∧
    total_light_regen singletonCard = specLightRegenAllMatches singletonCard :=
  ⟨⟨by decide, by decide⟩,
    c8_first_match_per_segment singletonCard (by decide) (by decide)⟩

/-- On inputs `x ≥ lo` (with `lo < hi`) the normalizer takes its closed
form `k * (x - lo) / (1 + x - lo)`. -/
theorem normalize_values_eq (lo hi : ℝ) (h : lo < hi) (x : ℝ) (hx : lo ≤ x) :
    normalize_values lo hi x = normalizeAsymptote lo hi * (x - lo) / (1 + x - lo) := by
  have hden : 1 + x - lo ≠ 0 := ne_of_gt (by linarith)
  simp only [normalize_values, normalizeAsymptote]
  rw [if_neg hden]

theorem normalizeAsymptote_pos (lo hi : ℝ) (h : lo < hi) :
    0 < normalizeAsymptote lo hi := by
  have hd : (0 : ℝ) < hi - lo := sub_pos.mpr h
  have h1 : (0 : ℝ) < 1 / (hi - lo) := by positivity
  unfold normalizeAsymptote
  nlinarith

set_option maxHeartbeats 800000 in
/-- C9: for `lo < hi` the function returned by `normalize_values(lo, hi)`
vanishes at `lo`, equals 0.99 at `hi`, is strictly increasing on `[lo, ∞)`,
stays strictly below the asymptote `k = 0.99 * (1 / (hi - lo) + 1)` on all
of `[lo, ∞)` (so it is not clamped at 1), and converges to `k` at
infinity. -/
theorem c9_normalizer_shape (lo hi : ℝ) (h : lo < hi) :
    normalize_values lo hi lo = 0 ∧
    normalize_values lo hi hi = 0.99 ∧
    StrictMonoOn (normalize_values lo hi) (Set.Ici lo) ∧
    (∀ x, lo ≤ x → normalize_values lo hi x < normalizeAsymptote lo hi) ∧
    Filter.Tendsto (normalize_values lo hi) Filter.atTop
      (nhds (normalizeAsymptote lo hi)) := by
  have hd : (0 : ℝ) < hi - lo := sub_pos.mpr h
  have hk : 0 < normalizeAsymptote lo hi := normalizeAsymptote_pos lo hi h
  refine ⟨?_, ?_, ?_, ?_, ?_⟩
  · rw [normalize_values_eq lo hi h lo le_rfl]
    simp
  · rw [normalize_values_eq lo hi h hi h.le]
    have hden : 1 + hi - lo ≠ 0 := ne_of_gt (by linarith)
    unfold normalizeAsymptote
    field_simp
    ring_nf
    tauto
  · intro a ha b hb hab
    simp only [Set.mem_Ici] at ha hb
    rw [normalize_values_eq lo hi h a ha, normalize_values_eq lo hi h b hb]
    have da : (0 : ℝ) < 1 + a - lo := by linarith
    have db : (0 : ℝ) < 1 + b - lo := by linarith
    rw [div_lt_div_iff₀ da db]
    nlinarith [mul_pos hk (sub_pos.mpr hab)]
  · intro x hx
    rw [normalize_values_eq lo hi h x hx]
    have dx : (0 : ℝ) < 1 + x - lo := by linarith
    rw [div_lt_iff₀ dx]
    nlinarith [hk]
  · have ev : (fun x => normalize_values lo hi x) =ᶠ[Filter.atTop]
        (fun x => normalizeAsymptote lo hi - normalizeAsymptote lo hi / (1 + x - lo)) := by
      filter_upwards [Filter.eventually_ge_atTop lo] with x hx
      rw [normalize_values_eq lo hi h x hx]
      have dx : 1 + x - lo ≠ 0 := ne_of_gt (by linarith)
      field_simp
      ring
    have h1 : Filter.Tendsto (fun x : ℝ => 1 + x - lo) Filter.atTop Filter.atTop := by
      have e : (fun x : ℝ => 1 + x - lo) = fun x : ℝ => x + (1 - lo) := by
        funext x
        ring
      rw [e]
      exact Filter.tendsto_atTop_add_const_right _ _ Filter.tendsto_id
    have h2 : Filter.Tendsto
        (fun x : ℝ => normalizeAsymptote lo hi / (1 + x - lo)) Filter.atTop (nhds 0) :=
      Filter.Tendsto.div_atTop tendsto_const_nhds h1
    have h3 := Filter.Tendsto.const_sub (normalizeAsymptote lo hi) h2
    rw [sub_zero] at h3
    exact Filter.Tendsto.congr' ev.symm h3

theorem c9_witness :
    ((0 : ℝ) < 1) ∧
    (normalize_values 0 1 0 = 0 ∧
      normalize_values 0 1 1 = 0.99 ∧
      StrictMonoOn (normalize_values 0 1) (Set.Ici 0) ∧
      (∀ x, (0 : ℝ) ≤ x → normalize_values 0 1 x < normalizeAsymptote 0 1) ∧
      Filter.Tendsto (normalize_values 0 1) Filter.atTop
        (nhds (normalizeAsymptote 0 1))) :=
  ⟨by norm_num, c9_normalizer_shape 0 1 (by norm_num)⟩

/-- Bridge between the filtered entropy summand of the source and
`Real.negMulLog`. -/
theorem entropyTerm_eq (p : ℝ) (hp : 0 ≤ p) :
    (if 0 < p then -(p * Real.logb 2 p) else 0) = Real.negMulLog p / Real.log 2 := by
  rcases eq_or_lt_of_le hp with h0 | h0
  · rw [if_neg (by rw [← h0]; exact lt_irrefl 0), ← h0]
    simp [Real.negMulLog]
  · rw [if_pos h0, Real.negMulLog, Real.logb]
    have h2 : Real.log 2 ≠ 0 := ne_of_gt (Real.log_pos (by norm_num))
    field_simp

/-- For a nonzero total, `calculate_normalized_entropy` is
`1 - (∑ negMulLog pᵢ) / log 5` with `pᵢ` the folded relative
frequencies. -/
theorem entropy_eq (a : DiceCounter) (ht : (∑ i : Fin 5, foldedCounts a i) ≠ 0) :
    calculate_normalized_entropy a
      = 1 - (∑ i : Fin 5, Real.negMulLog
          ((foldedCounts a i : ℝ) / ((∑ j : Fin 5, foldedCounts a j : ℕ) : ℝ)))
        / Real.log 5 := by
  have hlogb : (0 : ℝ) < Real.logb 2 5 := Real.logb_pos (by norm_num) (by norm_num)
  have hlog2 : Real.log 2 ≠ 0 := ne_of_gt (Real.log_pos (by norm_num))
  have hlog5 : Real.log 5 ≠ 0 := ne_of_gt (Real.log_pos (by norm_num))
  have htpos : (0 : ℝ) < ((∑ j : Fin 5, foldedCounts a j : ℕ) : ℝ) := by
    exact_mod_cast Nat.pos_of_ne_zero ht
  simp only [calculate_normalized_entropy]
  rw [if_neg ht, if_pos hlogb]
  congr 1
  rw [Finset.sum_congr rfl (fun i _ => entropyTerm_eq _ (by positivity))]
  rw [← Finset.sum_div, Real.logb]
  rw [div_div_div_eq, mul_comm (Real.log 2) (Real.log 5), mul_div_mul_right _ _ hlog2]

theorem negMulLog_eq_zero_of_mem (x : ℝ) (h0 : 0 ≤ x) :
    Real.negMulLog x = 0 ↔ x = 0 ∨ x = 1 := by
  rw [Real.negMulLog, neg_mul, neg_eq_zero]
  constructor
  · intro h
    rcases mul_eq_zero.mp h with hx | hl
    · exact Or.inl hx
    · rcases Real.log_eq_zero.mp hl with hx | hx | hx
      · exact Or.inl hx
      · exact Or.inr hx
      · exfalso; rw [hx] at h0; linarith
  · rintro (rfl | rfl) <;> simp

/-- Equality case of the entropy bound, by the strict Jensen inequality for
`negMulLog`: a probability vector on 5 points has entropy `log 5` iff it is
uniform. -/
theorem sum_negMulLog_eq_log5_iff (p : Fin 5 → ℝ) (hp0 : ∀ i, 0 ≤ p i)
    (hpsum : ∑ i, p i = 1) :
    (∑ i, Real.negMulLog (p i)) = Real.log 5 ↔ ∀ j, p j = 1 / 5 := by
  have h₀ : ∀ i ∈ Finset.univ, (0 : ℝ) < (fun _ : Fin 5 => (1 / 5 : ℝ)) i := by
    intro i _
    norm_num
  have h₁ : ∑ _i : Fin 5, (1 / 5 : ℝ) = 1 := by
    norm_num
  have hmem : ∀ i ∈ Finset.univ, p i ∈ Set.Ici (0 : ℝ) := fun i _ => hp0 i
  have hjen := Real.strictConcaveOn_negMulLog.map_sum_eq_iff h₀ h₁ hmem
  have hcenter : (∑ i : Fin 5, (1 / 5 : ℝ) • p i) = 1 / 5 := by
    simp only [smul_eq_mul]
    rw [← Finset.mul_sum, hpsum, mul_one]
  rw [hcenter] at hjen
  have hval : Real.negMulLog (1 / 5 : ℝ) = (1 / 5) * Real.log 5 := by
    rw [Real.negMulLog, show (1 / 5 : ℝ) = (5 : ℝ)⁻¹ by norm_num, Real.log_inv]
    ring
  rw [hval] at hjen
  have hsum5 : (∑ i : Fin 5, (1 / 5 : ℝ) • Real.negMulLog (p i))
      = (1 / 5) * ∑ i, Real.negMulLog (p i) := by
    simp only [smul_eq_mul]
    rw [← Finset.mul_sum]
  rw [hsum5] at hjen
  constructor
  · intro h
    exact fun j => hjen.mp (by rw [h]) j (Finset.mem_univ j)
  · intro h
    have h' := hjen.mpr (fun j _ => h j)
    have h5 : (1 / 5 : ℝ) ≠ 0 := by norm_num
    exact (mul_left_cancel₀ h5 h').symm

theorem uniform_counts_iff (c : Fin 5 → ℕ) (ht : (∑ i, c i) ≠ 0) :
    (∀ j : Fin 5, (c j : ℝ) / ((∑ i, c i : ℕ) : ℝ) = 1 / 5) ↔ ∀ i j, c i = c j := by
  have htR : (0 : ℝ) < ((∑ i, c i : ℕ) : ℝ) := by
    exact_mod_cast Nat.pos_of_ne_zero ht
  constructor
  · intro h i j
    have hi := h i
    have hj := h j
    rw [div_eq_div_iff (ne_of_gt htR) (by norm_num)] at hi hj
    have hi' : (c i : ℝ) * 5 = ((∑ k, c k : ℕ) : ℝ) := by linarith
    have hj' : (c j : ℝ) * 5 = ((∑ k, c k : ℕ) : ℝ) := by linarith
    have : (c i : ℝ) * 5 = (c j : ℝ) * 5 := by rw [hi', hj']
    have : c i * 5 = c j * 5 := by exact_mod_cast this
    omega
  · intro h j
    have hsum : (∑ i, c i) = 5 * c j := by
      rw [Finset.sum_congr rfl (fun x _ => h x j)]
      simp [Finset.sum_const, Finset.card_univ]
    have hcj : c j ≠ 0 := by
      intro h0
      apply ht
      rw [hsum, h0, Nat.mul_zero]
    rw [hsum]
    have h5cj : (0 : ℝ) < ((5 * c j : ℕ) : ℝ) := by
      have : 0 < 5 * c j := Nat.pos_of_ne_zero (by simp [hcj])
      exact_mod_cast this
    rw [div_eq_div_iff (ne_of_gt h5cj) (by norm_num)]
    push_cast
    ring

theorem single_nonzero_iff (c : Fin 5 → ℕ) (ht : (∑ i, c i) ≠ 0) :
    (∀ i, c i = 0 ∨ c i = ∑ k, c k) ↔
      ∃ i, c i ≠ 0 ∧ ∀ j, j ≠ i → c j = 0 := by
  constructor
  · intro h
    have hex : ∃ i, c i ≠ 0 := by
      by_contra hall
      push_neg at hall
      exact ht (Finset.sum_eq_zero (fun i _ => hall i))
    obtain ⟨i, hi⟩ := hex
    refine ⟨i, hi, ?_⟩
    intro j hj
    rcases h j with h0 | hjt
    · exact h0
    · exfalso
      rcases h i with h0 | hit
      · exact hi h0
      have hmem : j ∈ Finset.univ.erase i := Finset.mem_erase.mpr ⟨hj, Finset.mem_univ j⟩
      have hle : c j ≤ ∑ k ∈ Finset.univ.erase i, c k :=
        Finset.single_le_sum (fun k _ => Nat.zero_le _) hmem
      have hsplit : c i + ∑ k ∈ Finset.univ.erase i, c k = ∑ k, c k :=
        Finset.add_sum_erase Finset.univ c (Finset.mem_univ i)
      have hpos : 0 < ∑ k, c k := Nat.pos_of_ne_zero ht
      omega
  · rintro ⟨i, hi, hz⟩ k
    by_cases hk : k = i
    · subst hk
      right
      rw [Finset.sum_eq_single k (fun b _ hb => hz b hb)
        (fun hk' => absurd (Finset.mem_univ k) hk')]
    · exact Or.inl (hz k hk)

/-- The two extremal characterizations, at the level of the folded count
vector. -/
theorem entropy_iffs (c : Fin 5 → ℕ) (ht : (∑ i, c i) ≠ 0) :
    ((1 - (∑ i, Real.negMulLog ((c i : ℝ) / ((∑ j, c j : ℕ) : ℝ))) / Real.log 5 = 0) ↔
      ∀ i j, c i = c j) ∧
    ((1 - (∑ i, Real.negMulLog ((c i : ℝ) / ((∑ j, c j : ℕ) : ℝ))) / Real.log 5 = 1) ↔
      ∃ i, c i ≠ 0 ∧ ∀ j, j ≠ i → c j = 0) := by
  have hlog5 : Real.log 5 ≠ 0 := ne_of_gt (Real.log_pos (by norm_num))
  have htR : (0 : ℝ) < ((∑ j, c j : ℕ) : ℝ) := by
    exact_mod_cast Nat.pos_of_ne_zero ht
  have hp0 : ∀ i, 0 ≤ (c i : ℝ) / ((∑ j, c j : ℕ) : ℝ) := fun i => by positivity
  have hple : ∀ i, (c i : ℝ) / ((∑ j, c j : ℕ) : ℝ) ≤ 1 := by
    intro i
    rw [div_le_one htR]
    exact_mod_cast Finset.single_le_sum (f := fun j => c j)
      (fun j _ => Nat.zero_le _) (Finset.mem_univ i)
  have hpsum : ∑ i, (c i : ℝ) / ((∑ j, c j : ℕ) : ℝ) = 1 := by
    rw [← Finset.sum_div, ← Nat.cast_sum, div_self (ne_of_gt htR)]
  constructor
  · have hA1 : (1 - (∑ i, Real.negMulLog ((c i : ℝ) / ((∑ j, c j : ℕ) : ℝ)))
        / Real.log 5 = 0) ↔
        (∑ i, Real.negMulLog ((c i : ℝ) / ((∑ j, c j : ℕ) : ℝ))) = Real.log 5 := by
      rw [sub_eq_zero, eq_comm, div_eq_one_iff_eq hlog5]
    exact hA1.trans ((sum_negMulLog_eq_log5_iff _ hp0 hpsum).trans (uniform_counts_iff c ht))
  · have hB1 : (1 - (∑ i, Real.negMulLog ((c i : ℝ) / ((∑ j, c j : ℕ) : ℝ)))
        / Real.log 5 = 1) ↔
        (∑ i, Real.negMulLog ((c i : ℝ) / ((∑ j, c j : ℕ) : ℝ))) = 0 := by
      rw [sub_eq_self, div_eq_zero_iff, or_iff_left hlog5]
    have hB2 : (∑ i, Real.negMulLog ((c i : ℝ) / ((∑ j, c j : ℕ) : ℝ))) = 0 ↔
        ∀ i, Real.negMulLog ((c i : ℝ) / ((∑ j, c j : ℕ) : ℝ)) = 0 := by
      rw [Finset.sum_eq_zero_iff_of_nonneg
        (fun i _ => Real.negMulLog_nonneg (hp0 i) (hple i))]
      exact ⟨fun h i => h i (Finset.mem_univ i), fun h i _ => h i⟩
    have hB3 : (∀ i, Real.negMulLog ((c i : ℝ) / ((∑ j, c j : ℕ) : ℝ)) = 0) ↔
        ∀ i, c i = 0 ∨ c i = ∑ k, c k := by
      apply forall_congr'
      intro i
      rw [negMulLog_eq_zero_of_mem _ (hp0 i)]
      apply or_congr
      · rw [div_eq_zero_iff, or_iff_left (ne_of_gt htR)]
        exact ⟨fun h => by exact_mod_cast h, fun h => by exact_mod_cast h⟩
      · rw [div_eq_one_iff_eq (ne_of_gt htR)]
        exact ⟨fun h => by exact_mod_cast h, fun h => by exact_mod_cast h⟩
    exact hB1.trans (hB2.trans (hB3.trans (single_nonzero_iff c ht)))

/-- C7: the skewness `1 - normalized entropy` of a 10-type dice histogram
is 0 exactly when the 5 base types (counter-variants folded in) are equally
represented, and 1 exactly when exactly one base type is present and the
others absent. -/
theorem c7_entropy_extremes (a : DiceCounter) :
    (calculate_normalized_entropy a = 0 ↔
      ∀ i j : Fin 5, foldedCounts a i = foldedCounts a j) ∧
    (calculate_normalized_entropy a = 1 ↔
      ∃ i : Fin 5, foldedCounts a i ≠ 0 ∧
        ∀ j : Fin 5, j ≠ i → foldedCounts a j = 0) := by
  by_cases ht : (∑ i : Fin 5, foldedCounts a i) = 0
  · have hz : ∀ i, foldedCounts a i = 0 :=
      fun i => Finset.sum_eq_zero_iff.mp ht i (Finset.mem_univ i)
    have hskew : calculate_normalized_entropy a = 0 := by
      simp only [calculate_normalized_entropy]
      rw [if_pos ht]
    constructor
    · exact ⟨fun _ i j => by rw [hz i, hz j], fun _ => hskew⟩
    · constructor
      · intro h1
        rw [hskew] at h1
        norm_num at h1
      · rintro ⟨i, hi, -⟩
        exact absurd (hz i) hi
  · have h := entropy_iffs (foldedCounts a) ht
    rw [entropy_eq a ht]
    exact h

/-- C10: when `build_deck` proceeds to a search (valid effect, non-empty
input catalog, filtered pool larger than 9), its outcome depends on the
search procedure only through that procedure's behaviour at beam width
`min(B, pool - 9)` — the width actually passed at the call site — and for
`9 < pool < B + 9` this width is `pool - 9`, strictly narrower than the
requested `B`.  (The run is taken with an exhausted `input()` stream; a
retry rerun would reuse the already-narrowed width, since `B` is rebound
before the call.) -/
theorem c10_beam_width_passed (R : NpRandom) (f g : SearchFn R) (may : List String)
    (loaded : Except Unit (List Card)) (pages : List Card) (flags : Option Flags)
    (B : ℤ) (temp : ℝ) (effect : String) (seed : Option ℤ)
    (heff : pyLower effect ∈ valid_status_effects ∨ pyLower effect = "no_effect")
    (hne : pages ≠ [])
    (hp : 9 < (build_deck_filter_pool may (pyLower effect) pages).length)
    (hfg : ∀ pool2 fl2 seed2,
      f pool2 (beam_width_passed B (build_deck_filter_pool may (pyLower effect) pages).length)
          fl2 temp seed2 (pyLower effect)
        = g pool2 (beam_width_passed B (build_deck_filter_pool may (pyLower effect) pages).length)
          fl2 temp seed2 (pyLower effect)) :
    (build_deckF R f may [] loaded [] (some pages) flags B temp effect seed
      = build_deckF R g may [] loaded [] (some pages) flags B temp effect seed) ∧
    ((build_deck_filter_pool may (pyLower effect) pages).length < B + 9 →
      beam_width_passed B (build_deck_filter_pool may (pyLower effect) pages).length
          = ((build_deck_filter_pool may (pyLower effect) pages).length : ℤ) - 9 ∧
        beam_width_passed B (build_deck_filter_pool may (pyLower effect) pages).length < B) := by
  constructor
  · have hval : ¬(pyLower effect ∉ valid_status_effects ∧ pyLower effect ≠ "no_effect") := by
      rcases heff with h | h
      · exact fun hcon => hcon.1 h
      · exact fun hcon => hcon.2 h
    have hfg' := hfg
    simp only [build_deck_filter_pool] at hfg'
    simp only [build_deckF, build_deck_step]
    simp only [if_neg hval]
    rw [if_pos hne]
    simp only [ne_eq, not_true_eq_false, if_false]
    simp only [hfg']
  · intro hlt
    unfold beam_width_passed
    omega

theorem c10_witness :
    ((pyLower "no_effect" ∈ valid_status_effects ∨ pyLower "no_effect" = "no_effect") ∧
      poolTen ≠ [] ∧
      9 < (build_deck_filter_pool [] (pyLower "no_effect") poolTen).length ∧
      (build_deck_filter_pool [] (pyLower "no_effect") poolTen).length < 5 + 9) ∧
    (build_deckF rotChoice (fun _ _ _ _ _ _ => pure none) [] [] (Except.error ()) []
        (some poolTen) (some flagsProlonged) 5 1 "no_effect" none
      = build_deckF rotChoice
          (fun _ b _ _ _ _ => if b = 1 then pure none else pure (some (PyDeck.multi [])))
          [] [] (Except.error ()) [] (some poolTen) (some flagsProlonged) 5 1 "no_effect" none) ∧
    (beam_width_passed 5 (build_deck_filter_pool [] (pyLower "no_effect") poolTen).length
        = ((build_deck_filter_pool [] (pyLower "no_effect") poolTen).length : ℤ) - 9 ∧
      beam_width_passed 5 (build_deck_filter_pool [] (pyLower "no_effect") poolTen).length < 5) := by
  have hwidth : beam_width_passed 5
      (build_deck_filter_pool [] (pyLower "no_effect") poolTen).length = 1 := by
    with_unfolding_all decide
  have hmain := c10_beam_width_passed rotChoice
    (fun _ _ _ _ _ _ => pure none)
    (fun _ b _ _ _ _ => if b = 1 then pure none else pure (some (PyDeck.multi [])))
    [] (Except.error ()) poolTen (some flagsProlonged) 5 1 "no_effect" none
    (Or.inr rfl) (by decide) (by with_unfolding_all decide)
    (by
      intro pool2 fl2 seed2
      rw [hwidth]
      simp)
  exact ⟨⟨Or.inr rfl, by decide, by with_unfolding_all decide, by with_unfolding_all decide⟩,
    hmain.1, hmain.2 (by with_unfolding_all decide)⟩

end LoR
